import Mathlib

/-!
Shallow embedding of the request handlers in `app/dashboard/views.py` of the
`rickyplouis/web` repository (a Gitcoin fork), together with proofs about the
behaviour of the interest-claim, tool-vote, coin-redemption and web3-sync
endpoints.

Modelling conventions:
* ORM rows become Lean structures; tables become lists of rows inside a
  database state structure.  Django's many-to-many links (`bounty.interested`,
  `tool.votes`) are lists of row ids on the owning side, and deleting a row
  cascades by also removing its id from every link list.
* `Model.objects.get(...)` is embedded as a match on the list of rows
  satisfying the query: the empty list is `DoesNotExist`, a two-or-more
  element list is `MultipleObjectsReturned`, which is an unhandled exception
  (modelled by a dedicated result constructor) whenever the Python code does
  not catch it.
* The GitHub-token preamble (`helper_handle_access_token`) is abstracted: the
  handlers receive `request.session.get('profile_id')` after that preamble as
  an `Option Nat` argument.  A request with no session profile id and no
  valid access token corresponds to the argument `none`.
* JSON response bodies are modelled structurally: the HTTP status code, the
  identity of each fixed message string (as a constructor of `ErrorMsg`), and
  the presence/value of the `success` key.
* Side effects that leave the database and the chain (logging, Slack/Twitter
  notifications, the `UserAction` audit row) are outside the modelled state,
  matching the spec's declaration that they are opaque external services.
-/

/-- Error message strings produced by the handlers, one constructor per
distinct Python string literal.  `maxIssues n` is the f-string built from
`num_issues = n`. -/
inductive ErrorMsg where
  | mustAuthenticate
  | maxIssues (n : Nat)
  | alreadyInterested
  | bountyDoesNotExist
  | notExpressedInterest
  | alreadyVoted
deriving DecidableEq, Repr

/-! ## Interest-claim data model -/

/-- A row of the `Interest` table: primary key, claiming profile, and the
`created` timestamp used by `order_by('-created')`. -/
structure InterestRow where
  id : Nat
  profile_id : Nat
  created : Nat
deriving DecidableEq, Repr

/-- A row of the `Bounty` table, restricted to the fields the handlers read:
primary key, `idx_status`, membership in `Bounty.objects.current()`
(modelled as a flag), and the `interested` many-to-many link as a list of
`Interest` ids. -/
structure BountyRow where
  id : Nat
  idx_status : String
  isCurrent : Bool
  interested : List Nat
deriving DecidableEq, Repr

/-- Database state touched by `new_interest` / `remove_interest`:
the `Interest` and `Bounty` tables, the set of existing `Profile` primary
keys, the next auto-increment `Interest` id, and the current time used as
`created` for new rows. -/
structure InterestDb where
  interests : List InterestRow
  bounties : List BountyRow
  profiles : List Nat
  nextId : Nat
  now : Nat
deriving DecidableEq, Repr

/-- `Bounty.objects.get(pk=bounty_id)` (first row with the given pk). -/
def findBounty (db : InterestDb) (bountyId : Nat) : Option BountyRow :=
  db.bounties.find? (fun b => b.id == bountyId)

/-- The rows matching `Interest.objects.filter(profile_id=p, bounty=b)`:
interests linked to `b` through the `interested` many-to-many relation whose
`profile_id` is `p`. -/
def interestsFor (db : InterestDb) (b : BountyRow) (p : Nat) : List InterestRow :=
  db.interests.filter (fun i => b.interested.contains i.id && i.profile_id == p)

/-- Whether a bounty belongs to
`Bounty.objects.current().filter(idx_status__in=['open', 'started'])`. -/
def bountyIsActive (b : BountyRow) : Bool :=
  b.isCurrent && (b.idx_status == "open" || b.idx_status == "started")

/-- `Interest.objects.filter(profile_id=p, bounty__in=active_bounties).count()`:
the number of join rows between `p`'s interests and active bounties. -/
def numActive (db : InterestDb) (p : Nat) : Nat :=
  (((db.bounties.filter bountyIsActive).map
    (fun b => (interestsFor db b p).length))).sum

/-- Insert one interest row into a list that is already ordered by
decreasing `created`. -/
def insertByCreatedDesc (i : InterestRow) : List InterestRow → List InterestRow
  | [] => [i]
  | j :: js => if j.created ≤ i.created then i :: j :: js else j :: insertByCreatedDesc i js

/-- `order_by('-created')`: sort rows by decreasing `created` timestamp. -/
def sortByCreatedDesc (l : List InterestRow) : List InterestRow :=
  l.foldr insertByCreatedDesc []

/-- Delete the `Interest` rows with the given ids
(`Interest.objects.filter(pk__in=ids).delete()`).  The relational cascade
also removes the deleted ids from every bounty's `interested` link. -/
def deleteInterests (db : InterestDb) (ids : List Nat) : InterestDb :=
  { db with
    interests := db.interests.filter (fun i => !(ids.contains i.id)),
    bounties := db.bounties.map
      (fun b => { b with interested := b.interested.filter (fun iid => !(ids.contains iid)) }) }

/-- Outcome of `new_interest`: either a JSON response (status code, `error`
message, optional `success` key, optionally the serialized profile on
success), the `Http404` raise, or the unhandled `Profile.DoesNotExist`
raised while building the `record_user_action` argument. -/
inductive NewInterestResult where
  | errorResponse (status : Nat) (error : ErrorMsg) (success : Option Bool)
  | http404
  | successResponse (profileId : Nat)
  | profileNotFound
deriving DecidableEq, Repr

/-- The `new_interest` handler (views.py lines 100-164).  Arguments: database
state, session profile id after the access-token preamble, and the `bounty_id`
URL parameter. -/
def new_interest (db : InterestDb) (profileId? : Option Nat) (bountyId : Nat) :
    NewInterestResult × InterestDb :=
  match profileId? with
  | none => (.errorResponse 401 .mustAuthenticate none, db)
  | some p =>
    match findBounty db bountyId with
    | none => (.http404, db)
    | some bounty =>
      let num_issues := 3
      if num_issues ≤ numActive db p then
        (.errorResponse 401 (.maxIssues num_issues) (some false), db)
      else
        match interestsFor db bounty p with
        | [] =>
          let interest : InterestRow := ⟨db.nextId, p, db.now⟩
          let db' : InterestDb :=
            { db with
              interests := db.interests ++ [interest],
              bounties := db.bounties.map
                (fun b => if b.id == bounty.id
                  then { b with interested := b.interested ++ [interest.id] } else b),
              nextId := db.nextId + 1 }
          if db'.profiles.contains p
          then (.successResponse p, db')
          else (.profileNotFound, db')
        | [_] => (.errorResponse 401 .alreadyInterested (some false), db)
        | _ :: _ :: _ =>
          let delIds := ((sortByCreatedDesc (interestsFor db bounty p)).drop 1).map
            (fun i => i.id)
          (.errorResponse 401 .alreadyInterested (some false), deleteInterests db delIds)

/-- Outcome of `remove_interest`: a JSON response with a single `error` key,
a JSON response with an `errors` list and optional `success` key, the success
response, or the unhandled `Profile.DoesNotExist`. -/
inductive RemoveInterestResult where
  | errorSingle (status : Nat) (error : ErrorMsg)
  | errorList (status : Nat) (errors : List ErrorMsg) (success : Option Bool)
  | success
  | profileNotFound
deriving DecidableEq, Repr

/-- The `remove_interest` handler (views.py lines 167-219). -/
def remove_interest (db : InterestDb) (profileId? : Option Nat) (bountyId : Nat) :
    RemoveInterestResult × InterestDb :=
  match profileId? with
  | none => (.errorSingle 401 .mustAuthenticate, db)
  | some p =>
    match findBounty db bountyId with
    | none => (.errorList 401 [.bountyDoesNotExist] none, db)
    | some bounty =>
      match interestsFor db bounty p with
      | [] => (.errorList 401 [.notExpressedInterest] (some false), db)
      | [i] =>
        if db.profiles.contains p
        then (.success, deleteInterests db [i.id])
        else (.profileNotFound, db)
      | _ :: _ :: _ =>
        let delIds := (sortByCreatedDesc (interestsFor db bounty p)).map (fun i => i.id)
        (.success, deleteInterests db delIds)

/-- The interest rows currently recorded for the profile/bounty pair,
looking the bounty up by id in the current state. -/
def pairRows (db : InterestDb) (bountyId p : Nat) : List InterestRow :=
  match findBounty db bountyId with
  | none => []
  | some b => interestsFor db b p

/-! ## Tool-vote data model -/

/-- A row of the `ToolVote` table: primary key, voting profile, and the vote
value (`1` for up, `-1` for down). -/
structure ToolVoteRow where
  id : Nat
  profile_id : Nat
  value : Int
deriving DecidableEq, Repr

/-- A row of the `Tool` table: primary key and the `votes` many-to-many link
as a list of `ToolVote` ids. -/
structure ToolRow where
  id : Nat
  votes : List Nat
deriving DecidableEq, Repr

/-- Database state touched by the vote handlers. -/
structure ToolDb where
  tools : List ToolRow
  toolVotes : List ToolVoteRow
  nextVoteId : Nat
deriving DecidableEq, Repr

/-- `Tool.objects.get(pk=tool_id)` (first row with the given pk). -/
def findTool (db : ToolDb) (toolId : Nat) : Option ToolRow :=
  db.tools.find? (fun t => t.id == toolId)

/-- The rows matching `ToolVote.objects.get(profile_id=p, tool=t)`: votes
linked to `t` through the `votes` many-to-many relation cast by profile `p`. -/
def votesFor (db : ToolDb) (t : ToolRow) (p : Nat) : List ToolVoteRow :=
  db.toolVotes.filter (fun v => t.votes.contains v.id && v.profile_id == p)

/-- Outcome of a vote handler: an unhandled `Tool.DoesNotExist` (the lookup
precedes the auth check and is not wrapped in a try), an unhandled
`ToolVote.MultipleObjectsReturned`, or a JSON response with status code,
optional `error` message, and optional `success` key. -/
inductive VoteResult where
  | toolDoesNotExist
  | multipleVotesReturned
  | response (status : Nat) (error : Option ErrorMsg) (success : Option Bool)
deriving DecidableEq, Repr

/-- The `vote_tool_up` handler (views.py lines 814-839). -/
def vote_tool_up (db : ToolDb) (profileId? : Option Nat) (toolId : Nat) :
    VoteResult × ToolDb :=
  match findTool db toolId with
  | none => (.toolDoesNotExist, db)
  | some tool =>
    match profileId? with
    | none => (.response 401 (some .mustAuthenticate) none, db)
    | some p =>
      match votesFor db tool p with
      | [] =>
        let vote : ToolVoteRow := ⟨db.nextVoteId, p, 1⟩
        let db' : ToolDb :=
          { db with
            toolVotes := db.toolVotes ++ [vote],
            tools := db.tools.map
              (fun t => if t.id == tool.id
                then { t with votes := t.votes ++ [vote.id] } else t),
            nextVoteId := db.nextVoteId + 1 }
        (.response 200 none (some true), db')
      | [_] => (.response 401 (some .alreadyVoted) (some false), db)
      | _ :: _ :: _ => (.multipleVotesReturned, db)

/-- The `vote_tool_down` handler (views.py lines 841-866); identical to
`vote_tool_up` except the created vote's value is `-1`. -/
def vote_tool_down (db : ToolDb) (profileId? : Option Nat) (toolId : Nat) :
    VoteResult × ToolDb :=
  match findTool db toolId with
  | none => (.toolDoesNotExist, db)
  | some tool =>
    match profileId? with
    | none => (.response 401 (some .mustAuthenticate) none, db)
    | some p =>
      match votesFor db tool p with
      | [] =>
        let vote : ToolVoteRow := ⟨db.nextVoteId, p, -1⟩
        let db' : ToolDb :=
          { db with
            toolVotes := db.toolVotes ++ [vote],
            tools := db.tools.map
              (fun t => if t.id == tool.id
                then { t with votes := t.votes ++ [vote.id] } else t),
            nextVoteId := db.nextVoteId + 1 }
        (.response 200 none (some true), db')
      | [_] => (.response 401 (some .alreadyVoted) (some false), db)
      | _ :: _ :: _ => (.multipleVotesReturned, db)

/-- Well-formedness of the tool database, reflecting the relational schema:
auto-increment pks are below the next id (for rows and for link entries) and
pks are unique. -/
def toolDbWF (db : ToolDb) : Prop :=
  (∀ v ∈ db.toolVotes, v.id < db.nextVoteId) ∧
  (∀ t ∈ db.tools, ∀ vid ∈ t.votes, vid < db.nextVoteId) ∧
  (db.tools.map (fun t => t.id)).Nodup ∧
  (db.toolVotes.map (fun v => v.id)).Nodup

/-- The spec's tool-vote invariant: at most one `ToolVote` row per
profile/tool pair, and every vote value is `1` or `-1`. -/
def toolVoteInvariant (db : ToolDb) : Prop :=
  (∀ t ∈ db.tools, ∀ v ∈ db.toolVotes, ∀ w ∈ db.toolVotes,
    t.votes.contains v.id = true → t.votes.contains w.id = true →
    v.profile_id = w.profile_id → v = w) ∧
  (∀ v ∈ db.toolVotes, v.value = 1 ∨ v.value = -1)

/-! ## Coin redemption -/

/-- A row of the `CoinRedemption` table: primary key, redemption shortcode,
token amount and token contract address (addresses abstracted as numbers). -/
structure CoinRedemptionRow where
  id : Nat
  shortcode : String
  amount : Nat
  contract_address : Nat
deriving DecidableEq, Repr

/-- A row of the `CoinRedemptionRequest` table: primary key, the fulfilled
`CoinRedemption`, the broadcast transaction id and the recipient address. -/
structure CoinRedemptionRequestRow where
  id : Nat
  coin_redemption : Nat
  txid : Nat
  txaddress : Nat
deriving DecidableEq, Repr

/-- Database state touched by `redeem_coin`. -/
structure CoinDb where
  coinRedemptions : List CoinRedemptionRow
  coinRequests : List CoinRedemptionRequestRow
  nextReqId : Nat
deriving DecidableEq, Repr

/-- A `transfer` call built, signed and broadcast on chain: recipient,
token amount (`coin.amount * 10^18`), and the token contract called. -/
structure ChainTx where
  toAddress : Nat
  tokenAmount : Nat
  contract : Nat
deriving DecidableEq, Repr

/-- Status field of the `redeem_coin` JSON response. -/
inductive RedeemStatus where
  | ok
  | error
deriving DecidableEq, Repr

/-- Message field of the `redeem_coin` JSON response: the literal Bad-request
string, the broadcast transaction id, or the stringified exception from the
generic handler. -/
inductive RedeemMessage where
  | badRequest
  | txidMessage (txid : Nat)
  | exceptionMessage
deriving DecidableEq, Repr

/-- The POST branch of the `redeem_coin` handler (views.py lines 868-922),
for a request whose body parses and whose address passes
`Web3.toChecksumAddress`.  `chainTxid` is the transaction id the node
assigns to the broadcast raw transaction.  Returns the JSON response
(status, message), the new database state, and the list of transactions
broadcast while serving the request. -/
def redeem_coin (db : CoinDb) (chainTxid : Nat) (shortcode : String) (address : Nat) :
    (RedeemStatus × RedeemMessage) × CoinDb × List ChainTx :=
  match db.coinRedemptions.filter (fun c => c.shortcode == shortcode) with
  | [] => ((.error, .badRequest), db, [])
  | [coin] =>
    if db.coinRequests.any (fun r => r.coin_redemption == coin.id) then
      ((.error, .badRequest), db, [])
    else
      let tx : ChainTx := ⟨address, coin.amount * 10 ^ 18, coin.contract_address⟩
      let req : CoinRedemptionRequestRow := ⟨db.nextReqId, coin.id, chainTxid, address⟩
      ((.ok, .txidMessage chainTxid),
       { db with coinRequests := db.coinRequests ++ [req], nextReqId := db.nextReqId + 1 },
       [tx])
  | _ :: _ :: _ => ((.error, .exceptionMessage), db, [])

/-! ## Web3 sync polling -/

/-- Observable events of the `sync_web3` polling loop, in order: a call to
`web3_process_bounty` or a `time.sleep` of the given number of seconds. -/
inductive SyncEvent where
  | processBounty
  | sleepSeconds (n : Nat)
deriving DecidableEq, Repr

/-- Environment of one `sync_web3` request: the `has_tx_mined` answer, the
`get_bounty_id` answer (`none` for a falsy id), and the `did_change` outcome
of the k-th call to `web3_process_bounty` (0-indexed). -/
structure SyncEnv where
  txMined : Bool
  bountyId : Option Nat
  processOutcome : Nat → Bool

/-- The retry loop of `sync_web3` (views.py lines 708-717), starting from a
given `counter` value.  Each iteration calls `web3_process_bounty`; on
failure it sleeps 3 seconds, increments the counter, and exits when the
counter exceeds 3.  `fuel` is a structural bound on the remaining
iterations; from the handler's entry point (`counter = 0`, `fuel = 4`) the
zero-fuel branch is unreachable because the loop body runs at most 4 times.
Returns the final `did_change` and the event trace. -/
def syncLoopFrom (oracle : Nat → Bool) (counter : Nat) : Nat → Bool × List SyncEvent
  | 0 => (false, [])
  | fuel + 1 =>
    if oracle counter then
      (true, [SyncEvent.processBounty])
    else if 3 < counter + 1 then
      (false, [SyncEvent.processBounty, SyncEvent.sleepSeconds 3])
    else
      let r := syncLoopFrom oracle (counter + 1) fuel
      (r.1, SyncEvent.processBounty :: SyncEvent.sleepSeconds 3 :: r.2)

/-- The JSON response of `sync_web3`: the string `status`, the `msg`, and
the `did_change` key (absent except in the reconciliation branch). -/
structure SyncResult where
  status : String
  msg : String
  did_change : Option Bool
deriving DecidableEq, Repr

/-- Python truthiness of an optional request parameter: absent or empty
strings are falsy. -/
def truthy : Option String → Bool
  | none => false
  | some s => s != ""

/-- The `sync_web3` handler (views.py lines 667-724): parameter validation,
the mined-transaction and bounty-id checks, then the retry loop.  Returns
the JSON response and the trace of process/sleep events. -/
def sync_web3 (env : SyncEnv) (url txid network : Option String) :
    SyncResult × List SyncEvent :=
  if truthy url && truthy txid && truthy network then
    if !env.txMined then
      (⟨"400", "tx has not mined yet", none⟩, [])
    else
      match env.bountyId with
      | none => (⟨"400", "could not find bounty id", none⟩, [])
      | some _ =>
        let r := syncLoopFrom env.processOutcome 0 4
        (⟨"200", "success", some r.1⟩, r.2)
  else
    (⟨"400", "bad request", none⟩, [])

/-- Number of `web3_process_bounty` calls in a trace. -/
def countCalls (evs : List SyncEvent) : Nat :=
  (evs.filter (fun e => match e with | .processBounty => true | _ => false)).length

/-- Number of sleep events in a trace. -/
def countSleeps (evs : List SyncEvent) : Nat :=
  (evs.filter (fun e => match e with | .sleepSeconds _ => true | _ => false)).length

/-- Total seconds slept in a trace. -/
def totalSleep (evs : List SyncEvent) : Nat :=
  (evs.map (fun e => match e with | .sleepSeconds n => n | _ => 0)).sum

/-- A list whose head (if any) carries the greatest `created` timestamp. -/
def headCreatedMax : List InterestRow → Prop
  | [] => True
  | m :: rest => ∀ x ∈ m :: rest, x.created ≤ m.created

/-! ## Helper lemmas -/

theorem insertByCreatedDesc_perm (i : InterestRow) (l : List InterestRow) :
    (insertByCreatedDesc i l).Perm (i :: l) := by
  induction l with
  | nil => simp [insertByCreatedDesc]
  | cons j js ih =>
    simp only [insertByCreatedDesc]
    split
    · exact List.Perm.refl _
    · exact List.Perm.trans (List.Perm.cons j ih) (List.Perm.swap i j js)

theorem sortByCreatedDesc_perm (l : List InterestRow) : (sortByCreatedDesc l).Perm l := by
  induction l with
  | nil => simp [sortByCreatedDesc]
  | cons i is ih =>
    exact List.Perm.trans (insertByCreatedDesc_perm i (is.foldr insertByCreatedDesc []))
      (List.Perm.cons i ih)

theorem insertByCreatedDesc_headMax (i : InterestRow) (l : List InterestRow)
    (h : headCreatedMax l) : headCreatedMax (insertByCreatedDesc i l) := by
  cases l with
  | nil =>
    intro x hx
    simp [insertByCreatedDesc] at hx
    subst hx
    exact Nat.le_refl _
  | cons j js =>
    simp only [insertByCreatedDesc]
    split
    · intro x hx
      rcases List.mem_cons.mp hx with h1 | hx2
      · subst h1; exact Nat.le_refl _
      · exact Nat.le_trans (h x hx2) (by assumption)
    · intro x hx
      rcases List.mem_cons.mp hx with h1 | hx2
      · subst h1; exact Nat.le_refl _
      · rcases List.mem_cons.mp ((insertByCreatedDesc_perm i js).mem_iff.mp hx2) with h1 | hx3
        · subst h1
          exact Nat.le_of_not_le (by assumption)
        · exact h x (List.mem_cons_of_mem j hx3)

theorem sortByCreatedDesc_headMax (l : List InterestRow) :
    headCreatedMax (sortByCreatedDesc l) := by
  induction l with
  | nil => trivial
  | cons i is ih => exact insertByCreatedDesc_headMax i _ ih

theorem filter_eq_singleton {α : Type} {l : List α} {pred : α → Bool} {a : α}
    (hnd : l.Nodup) (ha : a ∈ l) (hpred : ∀ b ∈ l, (pred b = true ↔ b = a)) :
    l.filter pred = [a] := by
  induction l with
  | nil => cases ha
  | cons x xs ih =>
    rcases List.mem_cons.mp ha with h1 | hxs
    · subst h1
      have hpx : pred a = true := (hpred a (List.mem_cons_self a xs)).mpr rfl
      have hnin : a ∉ xs := (List.nodup_cons.mp hnd).1
      have hnil : xs.filter pred = [] := by
        apply List.filter_eq_nil_iff.mpr
        intro b hb hpb
        exact hnin (((hpred b (List.mem_cons_of_mem a hb)).mp hpb) ▸ hb)
      simp [List.filter_cons, hpx, hnil]
    · have hne : x ≠ a := by
        intro hxa
        exact (List.nodup_cons.mp hnd).1 (hxa ▸ hxs)
      have hpx : pred x = false := by
        cases hp : pred x
        · rfl
        · exact absurd ((hpred x (List.mem_cons_self x xs)).mp hp) hne
      have hrec := ih (List.nodup_cons.mp hnd).2 hxs
        (fun b hb => hpred b (List.mem_cons_of_mem x hb))
      simp [List.filter_cons, hpx, hrec]

theorem contains_filter (l : List Nat) (q : Nat → Bool) (a : Nat) :
    (l.filter q).contains a = (l.contains a && q a) := by
  by_cases h : a ∈ l.filter q
  · have h2 := List.mem_filter.mp h
    simp [h, h2.1, h2.2]
  · have h2 : ¬ (a ∈ l ∧ q a = true) := fun hc => h (List.mem_filter.mpr hc)
    rcases Decidable.em (a ∈ l) with hm | hm
    · have hq : q a = false := by
        cases hq : q a
        · rfl
        · exact absurd ⟨hm, hq⟩ h2
      simp [h, hm, hq]
    · simp [h, hm]

theorem findBounty_deleteInterests (db : InterestDb) (ids : List Nat) (bountyId : Nat) :
    findBounty (deleteInterests db ids) bountyId =
      (findBounty db bountyId).map
        (fun b => { b with interested := b.interested.filter (fun iid => !(ids.contains iid)) }) := by
  simp only [findBounty, deleteInterests]
  rw [List.find?_map]
  rfl

theorem pairRows_deleteInterests (db : InterestDb) (ids : List Nat) (bountyId p : Nat) :
    pairRows (deleteInterests db ids) bountyId p =
      (pairRows db bountyId p).filter (fun i => !(ids.contains i.id)) := by
  simp only [pairRows, findBounty_deleteInterests]
  cases h : findBounty db bountyId with
  | none => simp
  | some b =>
    simp only [Option.map_some']
    simp only [interestsFor, deleteInterests]
    rw [List.filter_filter, List.filter_filter]
    apply List.filter_congr
    intro i _
    rw [contains_filter]
    cases hdel : ids.contains i.id <;> cases hmem : b.interested.contains i.id <;> simp

/-! ## Claim theorems: interest-claim endpoint -/

/-- C1: an authenticated `new_interest` request on an existing bounty by a
profile that already has at least 3 interest rows on active (current,
open-or-started) bounties gets HTTP 401 with the max-issues error message and
the success-false key, and the database is unchanged (no `Interest` row is
created). -/
theorem new_interest_max_active_cap (db : InterestDb) (p bountyId : Nat) (b : BountyRow)
    (hb : findBounty db bountyId = some b)
    (hcap : 3 ≤ numActive db p) :
    new_interest db (some p) bountyId =
      (.errorResponse 401 (.maxIssues 3) (some false), db) := by
  simp [new_interest, hb, hcap]

/-- Witness for C1: a profile with 3 duplicate interest rows on one open
current bounty is refused a new claim. -/
theorem new_interest_max_active_cap_witness :
    new_interest ⟨[⟨1, 7, 10⟩, ⟨2, 7, 11⟩, ⟨3, 7, 12⟩], [⟨1, "open", true, [1, 2, 3]⟩],
        [7], 4, 100⟩ (some 7) 1 =
      (.errorResponse 401 (.maxIssues 3) (some false),
        ⟨[⟨1, 7, 10⟩, ⟨2, 7, 11⟩, ⟨3, 7, 12⟩], [⟨1, "open", true, [1, 2, 3]⟩],
          [7], 4, 100⟩) :=
  new_interest_max_active_cap _ 7 1 ⟨1, "open", true, [1, 2, 3]⟩ (by decide) (by decide)

/-- C5 counterexample: a profile holding exactly one interest row on the
requested bounty but 3 active interest rows overall hits the max-issues
check first, so the handler answers with the max-issues error rather than
the already-expressed-interest error the claim requires. -/
theorem new_interest_already_interested_counterexample :
    (pairRows ⟨[⟨1, 7, 10⟩, ⟨2, 7, 11⟩, ⟨3, 7, 12⟩],
        [⟨1, "open", true, [1]⟩, ⟨2, "open", true, [2]⟩, ⟨3, "started", true, [3]⟩],
        [7], 4, 100⟩ 1 7).length = 1 ∧
    (new_interest ⟨[⟨1, 7, 10⟩, ⟨2, 7, 11⟩, ⟨3, 7, 12⟩],
        [⟨1, "open", true, [1]⟩, ⟨2, "open", true, [2]⟩, ⟨3, "started", true, [3]⟩],
        [7], 4, 100⟩ (some 7) 1).1 = .errorResponse 401 (.maxIssues 3) (some false) ∧
    (new_interest ⟨[⟨1, 7, 10⟩, ⟨2, 7, 11⟩, ⟨3, 7, 12⟩],
        [⟨1, "open", true, [1]⟩, ⟨2, "open", true, [2]⟩, ⟨3, "started", true, [3]⟩],
        [7], 4, 100⟩ (some 7) 1).1 ≠ .errorResponse 401 .alreadyInterested (some false) := by
  decide

/-- C5 amended: an authenticated `new_interest` request on an existing bounty
by a profile that holds exactly one interest row on that bounty and fewer
than 3 active interest rows overall gets HTTP 401 with the
already-expressed-interest error and the success-false key, and the database
is unchanged. -/
theorem new_interest_already_interested (db : InterestDb) (p bountyId : Nat)
    (b : BountyRow) (i : InterestRow)
    (hb : findBounty db bountyId = some b)
    (hcap : numActive db p < 3)
    (hone : interestsFor db b p = [i]) :
    new_interest db (some p) bountyId =
      (.errorResponse 401 .alreadyInterested (some false), db) := by
  have hcap' : ¬ 3 ≤ numActive db p := Nat.not_le.mpr hcap
  simp [new_interest, hb, hcap', hone]

/-- Witness for amended C5: a second claim on an already-claimed bounty is
refused with the already-expressed-interest error. -/
theorem new_interest_already_interested_witness :
    new_interest ⟨[⟨1, 7, 10⟩], [⟨1, "done", true, [1]⟩], [7], 2, 100⟩ (some 7) 1 =
      (.errorResponse 401 .alreadyInterested (some false),
        ⟨[⟨1, 7, 10⟩], [⟨1, "done", true, [1]⟩], [7], 2, 100⟩) :=
  new_interest_already_interested _ 7 1 ⟨1, "done", true, [1]⟩ ⟨1, 7, 10⟩
    (by decide) (by decide) (by decide)

/-! ## Claim theorems: tool votes -/

/-- C9 counterexample: a vote request naming a tool id with no matching
`Tool` row raises the unhandled `Tool.DoesNotExist` before the
authentication check runs, so an unauthenticated request on a missing tool
does not receive the 401 JSON error the claim requires. -/
theorem vote_unauthenticated_counterexample :
    (vote_tool_up ⟨[], [], 0⟩ none 1).1 = .toolDoesNotExist ∧
    (vote_tool_up ⟨[], [], 0⟩ none 1).1 ≠ .response 401 (some .mustAuthenticate) none ∧
    (vote_tool_down ⟨[], [], 0⟩ none 1).1 = .toolDoesNotExist ∧
    (vote_tool_down ⟨[], [], 0⟩ none 1).1 ≠ .response 401 (some .mustAuthenticate) none := by
  decide

/-- C9 amended: a vote request on an existing tool with no session profile id
(and no valid access token) gets HTTP 401 with the must-authenticate error
and no `ToolVote` row is created (the database is unchanged), for both the
up-vote and the down-vote handler. -/
theorem vote_unauthenticated_401 (db : ToolDb) (toolId : Nat) (t : ToolRow)
    (ht : findTool db toolId = some t) :
    vote_tool_up db none toolId = (.response 401 (some .mustAuthenticate) none, db) ∧
    vote_tool_down db none toolId = (.response 401 (some .mustAuthenticate) none, db) := by
  constructor
  · simp [vote_tool_up, ht]
  · simp [vote_tool_down, ht]

/-- Witness for amended C9: an unauthenticated vote on an existing tool is
refused with 401. -/
theorem vote_unauthenticated_401_witness :
    vote_tool_up ⟨[⟨1, []⟩], [], 5⟩ none 1 =
        (.response 401 (some .mustAuthenticate) none, ⟨[⟨1, []⟩], [], 5⟩) ∧
    vote_tool_down ⟨[⟨1, []⟩], [], 5⟩ none 1 =
        (.response 401 (some .mustAuthenticate) none, ⟨[⟨1, []⟩], [], 5⟩) :=
  vote_unauthenticated_401 ⟨[⟨1, []⟩], [], 5⟩ 1 ⟨1, []⟩ (by decide)

/-- C10: when no `Tool` row matches the requested tool id, both vote handlers
terminate with the unhandled `Tool.DoesNotExist` exception (no JSON response
at all) and leave the database unchanged, whatever the session profile id,
because the tool lookup precedes the authentication check and sits outside
any exception handler. -/
theorem vote_missing_tool_raises (db : ToolDb) (profileId? : Option Nat) (toolId : Nat)
    (ht : findTool db toolId = none) :
    vote_tool_up db profileId? toolId = (.toolDoesNotExist, db) ∧
    vote_tool_down db profileId? toolId = (.toolDoesNotExist, db) := by
  constructor
  · simp [vote_tool_up, ht]
  · simp [vote_tool_down, ht]

/-- Witness for C10: voting on a missing tool without authentication raises
instead of producing a 401 response. -/
theorem vote_missing_tool_raises_witness :
    vote_tool_up ⟨[⟨1, []⟩], [], 0⟩ none 2 = (.toolDoesNotExist, ⟨[⟨1, []⟩], [], 0⟩) ∧
    vote_tool_down ⟨[⟨1, []⟩], [], 0⟩ none 2 = (.toolDoesNotExist, ⟨[⟨1, []⟩], [], 0⟩) :=
  vote_missing_tool_raises ⟨[⟨1, []⟩], [], 0⟩ none 2 (by decide)

/-! ## Claim theorems: coin redemption -/

/-- C2: for a POST `redeem_coin` request whose shortcode matches exactly one
`CoinRedemption`: if a `CoinRedemptionRequest` already exists for it, the
handler answers status error with the Bad-request message, broadcasts
nothing and leaves the database unchanged; if none exists, it broadcasts
exactly one transfer of `coin.amount * 10^18` tokens on the coin's contract
and records the broadcast transaction id in one new
`CoinRedemptionRequest` row. -/
theorem redeem_coin_one_shot (db : CoinDb) (chainTxid : Nat) (shortcode : String)
    (address : Nat) (coin : CoinRedemptionRow)
    (hc : db.coinRedemptions.filter (fun c => c.shortcode == shortcode) = [coin]) :
    ((∃ r ∈ db.coinRequests, r.coin_redemption = coin.id) →
      redeem_coin db chainTxid shortcode address = ((.error, .badRequest), db, [])) ∧
    ((∀ r ∈ db.coinRequests, r.coin_redemption ≠ coin.id) →
      redeem_coin db chainTxid shortcode address =
        ((.ok, .txidMessage chainTxid),
          { db with
            coinRequests := db.coinRequests ++ [⟨db.nextReqId, coin.id, chainTxid, address⟩],
            nextReqId := db.nextReqId + 1 },
          [⟨address, coin.amount * 10 ^ 18, coin.contract_address⟩])) := by
  constructor
  · rintro ⟨r, hr, hre⟩
    have hany : db.coinRequests.any (fun r => r.coin_redemption == coin.id) = true :=
      List.any_eq_true.mpr ⟨r, hr, by simp [hre]⟩
    simp [redeem_coin, hc, hany]
  · intro hnone
    have hany : db.coinRequests.any (fun r => r.coin_redemption == coin.id) = false := by
      cases h : db.coinRequests.any (fun r => r.coin_redemption == coin.id)
      · rfl
      · rcases List.any_eq_true.mp h with ⟨r, hr, hre⟩
        simp only [beq_iff_eq] at hre
        exact absurd hre (hnone r hr)
    simp [redeem_coin, hc, hany]

/-- Witness for C2: the first redemption of a fresh shortcode broadcasts one
transfer and records its transaction id. -/
theorem redeem_coin_one_shot_witness :
    ((∃ r ∈ (⟨[⟨1, "abc", 2, 900⟩], [], 0⟩ : CoinDb).coinRequests, r.coin_redemption = 1) →
      redeem_coin ⟨[⟨1, "abc", 2, 900⟩], [], 0⟩ 42 "abc" 777 =
        ((.error, .badRequest), ⟨[⟨1, "abc", 2, 900⟩], [], 0⟩, [])) ∧
    ((∀ r ∈ (⟨[⟨1, "abc", 2, 900⟩], [], 0⟩ : CoinDb).coinRequests, r.coin_redemption ≠ 1) →
      redeem_coin ⟨[⟨1, "abc", 2, 900⟩], [], 0⟩ 42 "abc" 777 =
        ((.ok, .txidMessage 42),
          ⟨[⟨1, "abc", 2, 900⟩], [⟨0, 1, 42, 777⟩], 1⟩,
          [⟨777, 2 * 10 ^ 18, 900⟩])) :=
  redeem_coin_one_shot ⟨[⟨1, "abc", 2, 900⟩], [], 0⟩ 42 "abc" 777 ⟨1, "abc", 2, 900⟩
    (by decide)

/-! ## Claim theorems: web3 sync -/

theorem syncLoopFrom_countCalls_le (oracle : Nat → Bool) (counter fuel : Nat) :
    countCalls (syncLoopFrom oracle counter fuel).2 ≤ fuel := by
  induction fuel generalizing counter with
  | zero => simp [syncLoopFrom, countCalls]
  | succ n ih =>
    simp only [syncLoopFrom]
    split
    · simp [countCalls]
    · split
      · simp [countCalls]
      · have hrec := ih (counter + 1)
        simp only [countCalls] at hrec ⊢
        simp
        omega

theorem syncLoopFrom_sleep_bounds (oracle : Nat → Bool) (counter fuel : Nat) :
    countSleeps (syncLoopFrom oracle counter fuel).2 ≤ fuel ∧
    totalSleep (syncLoopFrom oracle counter fuel).2 ≤ 3 * fuel := by
  induction fuel generalizing counter with
  | zero => simp [syncLoopFrom, countSleeps, totalSleep]
  | succ n ih =>
    simp only [syncLoopFrom]
    split
    · simp [countSleeps, totalSleep]
    · split
      · simp [countSleeps, totalSleep]
      · have hrec := ih (counter + 1)
        simp only [countSleeps, totalSleep] at hrec ⊢
        simp
        omega

/-- The event trace of `sync_web3` is either empty (a validation branch) or
the trace of the retry loop run with 4 units of fuel. -/
theorem sync_web3_trace (env : SyncEnv) (url txid network : Option String) :
    (sync_web3 env url txid network).2 = [] ∨
    (sync_web3 env url txid network).2 = (syncLoopFrom env.processOutcome 0 4).2 := by
  unfold sync_web3
  split
  · split
    · left; rfl
    · split
      · left; rfl
      · right; rfl
  · left; rfl

/-- C4 counterexample: a reconciliation that never succeeds sleeps 4 times
for 12 seconds in total, exceeding the claimed 9-second / 3-sleep cap. -/
theorem sync_web3_sleep_counterexample :
    totalSleep (sync_web3 ⟨true, some 1, fun _ => false⟩
        (some "u") (some "t") (some "n")).2 = 12 ∧
    countSleeps (sync_web3 ⟨true, some 1, fun _ => false⟩
        (some "u") (some "t") (some "n")).2 = 4 ∧
    ¬ totalSleep (sync_web3 ⟨true, some 1, fun _ => false⟩
        (some "u") (some "t") (some "n")).2 ≤ 9 := by
  decide

/-- C4 amended: for every `sync_web3` request the polling loop executes the
3-second sleep at most 4 times, so at most 12 seconds are spent sleeping in
the worst case. -/
theorem sync_web3_sleep_bound (env : SyncEnv) (url txid network : Option String) :
    countSleeps (sync_web3 env url txid network).2 ≤ 4 ∧
    totalSleep (sync_web3 env url txid network).2 ≤ 12 := by
  rcases sync_web3_trace env url txid network with h | h
  · simp [h, countSleeps, totalSleep]
  · rw [h]
    have hb := syncLoopFrom_sleep_bounds env.processOutcome 0 4
    omega

/-- C3: for every `sync_web3` request that reaches the reconciliation loop
(all three parameters truthy, transaction mined, bounty id resolved):
`web3_process_bounty` is called at most 4 times; if the i-th call (0-indexed,
i < 4) is the first to report a change, the trace is i fail/sleep pairs
followed by the final successful call, with exactly one 3-second sleep
between consecutive calls and nothing after the successful one, and the
response reports did_change true; if all 4 calls report no change, the
trace is 4 fail/sleep pairs and the handler returns JSON status 200,
msg success, did_change false. -/
theorem sync_web3_retry_policy (env : SyncEnv) (url txid network : Option String)
    (hu : truthy url = true) (ht : truthy txid = true) (hn : truthy network = true)
    (hm : env.txMined = true) (hb : env.bountyId.isSome = true) :
    countCalls (sync_web3 env url txid network).2 ≤ 4 ∧
    (∀ i, i < 4 → env.processOutcome i = true →
      (∀ j, j < i → env.processOutcome j = false) →
      (sync_web3 env url txid network).2 =
        (List.replicate i [SyncEvent.processBounty, SyncEvent.sleepSeconds 3]).flatten ++
          [SyncEvent.processBounty] ∧
      (sync_web3 env url txid network).1 = ⟨"200", "success", some true⟩) ∧
    ((∀ j, j < 4 → env.processOutcome j = false) →
      (sync_web3 env url txid network).2 =
        (List.replicate 4 [SyncEvent.processBounty, SyncEvent.sleepSeconds 3]).flatten ∧
      (sync_web3 env url txid network).1 = ⟨"200", "success", some false⟩) := by
  obtain ⟨bid, hbid⟩ := Option.isSome_iff_exists.mp hb
  have hred : sync_web3 env url txid network =
      (⟨"200", "success", some (syncLoopFrom env.processOutcome 0 4).1⟩,
        (syncLoopFrom env.processOutcome 0 4).2) := by
    simp [sync_web3, hu, ht, hn, hm, hbid]
  rw [hred]
  refine ⟨syncLoopFrom_countCalls_le _ 0 4, ?_, ?_⟩
  · intro i hi hsucc hfail
    interval_cases i
    · simp [syncLoopFrom, hsucc]
    · have h0 := hfail 0 (by omega)
      simp [syncLoopFrom, h0, hsucc]
    · have h0 := hfail 0 (by omega)
      have h1 := hfail 1 (by omega)
      simp [syncLoopFrom, h0, h1, hsucc]
    · have h0 := hfail 0 (by omega)
      have h1 := hfail 1 (by omega)
      have h2 := hfail 2 (by omega)
      simp [syncLoopFrom, h0, h1, h2, hsucc]
  · intro hfail
    have h0 := hfail 0 (by omega)
    have h1 := hfail 1 (by omega)
    have h2 := hfail 2 (by omega)
    have h3 := hfail 3 (by omega)
    simp [syncLoopFrom, h0, h1, h2, h3]

/-- Witness for C3: with every reconciliation attempt failing, the handler
makes 4 calls and answers did_change false. -/
theorem sync_web3_retry_policy_witness :
    countCalls (sync_web3 ⟨true, some 1, fun _ => false⟩
        (some "u") (some "t") (some "n")).2 ≤ 4 ∧
    (∀ i, i < 4 → (fun _ => false : Nat → Bool) i = true →
      (∀ j, j < i → (fun _ => false : Nat → Bool) j = false) →
      (sync_web3 ⟨true, some 1, fun _ => false⟩ (some "u") (some "t") (some "n")).2 =
        (List.replicate i [SyncEvent.processBounty, SyncEvent.sleepSeconds 3]).flatten ++
          [SyncEvent.processBounty] ∧
      (sync_web3 ⟨true, some 1, fun _ => false⟩ (some "u") (some "t") (some "n")).1 =
        ⟨"200", "success", some true⟩) ∧
    ((∀ j, j < 4 → (fun _ => false : Nat → Bool) j = false) →
      (sync_web3 ⟨true, some 1, fun _ => false⟩ (some "u") (some "t") (some "n")).2 =
        (List.replicate 4 [SyncEvent.processBounty, SyncEvent.sleepSeconds 3]).flatten ∧
      (sync_web3 ⟨true, some 1, fun _ => false⟩ (some "u") (some "t") (some "n")).1 =
        ⟨"200", "success", some false⟩) :=
  sync_web3_retry_policy ⟨true, some 1, fun _ => false⟩ (some "u") (some "t") (some "n")
    rfl rfl rfl rfl rfl

/-- C7: for an authenticated `remove_interest` request on an existing bounty
by an existing profile: when the profile has at least one interest row on the
bounty (one or several duplicates), the handler answers success and
afterwards no interest row remains for the profile/bounty pair; when it has
none, the handler answers HTTP 401 with the not-expressed-interest error and
the database is unchanged. -/
theorem remove_interest_clears_pair (db : InterestDb) (p bountyId : Nat) (b : BountyRow)
    (hb : findBounty db bountyId = some b)
    (hprof : db.profiles.contains p = true) :
    (interestsFor db b p ≠ [] →
      (remove_interest db (some p) bountyId).1 = .success ∧
      pairRows (remove_interest db (some p) bountyId).2 bountyId p = []) ∧
    (interestsFor db b p = [] →
      remove_interest db (some p) bountyId =
        (.errorList 401 [.notExpressedInterest] (some false), db)) := by
  constructor
  · intro hne
    cases hL : interestsFor db b p with
    | nil => exact absurd hL hne
    | cons i rest =>
      cases rest with
      | nil =>
        simp only [remove_interest, hb, hL, hprof, if_true]
        refine ⟨trivial, ?_⟩
        rw [pairRows_deleteInterests]
        have hpr : pairRows db bountyId p = [i] := by
          simp [pairRows, hb, hL]
        rw [hpr]
        simp
      | cons j rest2 =>
        simp only [remove_interest, hb, hL]
        refine ⟨trivial, ?_⟩
        rw [pairRows_deleteInterests]
        have hpr : pairRows db bountyId p = interestsFor db b p := by
          simp [pairRows, hb]
        rw [hpr]
        apply List.filter_eq_nil_iff.mpr
        intro x hx
        have hxs : x ∈ sortByCreatedDesc (interestsFor db b p) :=
          (sortByCreatedDesc_perm _).mem_iff.mpr hx
        have hxid : x.id ∈ (sortByCreatedDesc (i :: j :: rest2)).map (fun i => i.id) := by
          rw [← hL]
          exact List.mem_map.mpr ⟨x, hxs, rfl⟩
        simp [hxid]
  · intro hempty
    simp [remove_interest, hb, hempty]

/-- Witness for C7: unclaiming a bounty that carries two duplicate interest
rows succeeds and leaves no row for the pair. -/
theorem remove_interest_clears_pair_witness :
    (interestsFor ⟨[⟨1, 7, 10⟩, ⟨2, 7, 20⟩], [⟨1, "done", true, [1, 2]⟩], [7], 3, 100⟩
        ⟨1, "done", true, [1, 2]⟩ 7 ≠ [] →
      (remove_interest ⟨[⟨1, 7, 10⟩, ⟨2, 7, 20⟩], [⟨1, "done", true, [1, 2]⟩], [7], 3, 100⟩
          (some 7) 1).1 = .success ∧
      pairRows (remove_interest ⟨[⟨1, 7, 10⟩, ⟨2, 7, 20⟩], [⟨1, "done", true, [1, 2]⟩],
          [7], 3, 100⟩ (some 7) 1).2 1 7 = []) ∧
    (interestsFor ⟨[⟨1, 7, 10⟩, ⟨2, 7, 20⟩], [⟨1, "done", true, [1, 2]⟩], [7], 3, 100⟩
        ⟨1, "done", true, [1, 2]⟩ 7 = [] →
      remove_interest ⟨[⟨1, 7, 10⟩, ⟨2, 7, 20⟩], [⟨1, "done", true, [1, 2]⟩], [7], 3, 100⟩
          (some 7) 1 =
        (.errorList 401 [.notExpressedInterest] (some false),
          ⟨[⟨1, 7, 10⟩, ⟨2, 7, 20⟩], [⟨1, "done", true, [1, 2]⟩], [7], 3, 100⟩)) :=
  remove_interest_clears_pair ⟨[⟨1, 7, 10⟩, ⟨2, 7, 20⟩], [⟨1, "done", true, [1, 2]⟩],
      [7], 3, 100⟩ 7 1 ⟨1, "done", true, [1, 2]⟩ (by decide) (by decide)

/-- C6 counterexample: a profile with 3 duplicate interest rows on one
active bounty trips the max-issues check before the duplicate-repair branch
can run, so the handler neither deletes the duplicates nor returns the
already-expressed-interest error the claim requires. -/
theorem new_interest_dedup_counterexample :
    2 ≤ (pairRows ⟨[⟨1, 7, 10⟩, ⟨2, 7, 11⟩, ⟨3, 7, 12⟩], [⟨1, "open", true, [1, 2, 3]⟩],
        [7], 4, 100⟩ 1 7).length ∧
    new_interest ⟨[⟨1, 7, 10⟩, ⟨2, 7, 11⟩, ⟨3, 7, 12⟩], [⟨1, "open", true, [1, 2, 3]⟩],
        [7], 4, 100⟩ (some 7) 1 =
      (.errorResponse 401 (.maxIssues 3) (some false),
        ⟨[⟨1, 7, 10⟩, ⟨2, 7, 11⟩, ⟨3, 7, 12⟩], [⟨1, "open", true, [1, 2, 3]⟩],
          [7], 4, 100⟩) ∧
    (new_interest ⟨[⟨1, 7, 10⟩, ⟨2, 7, 11⟩, ⟨3, 7, 12⟩], [⟨1, "open", true, [1, 2, 3]⟩],
        [7], 4, 100⟩ (some 7) 1).1 ≠ .errorResponse 401 .alreadyInterested (some false) := by
  decide

/-- C6 amended: for an authenticated `new_interest` request on an existing
bounty by a profile with fewer than 3 active interest rows, when several
interest rows exist for the profile/bounty pair (and interest pks are
unique), the handler keeps exactly one row of the pair - one with the
greatest `created` timestamp - deletes the other rows of the pair, touches
no row outside the pair, and returns HTTP 401 with the
already-expressed-interest error. -/
theorem new_interest_dedup (db : InterestDb) (p bountyId : Nat) (b : BountyRow)
    (hnd : (db.interests.map (fun i => i.id)).Nodup)
    (hb : findBounty db bountyId = some b)
    (hcap : numActive db p < 3)
    (hm : 2 ≤ (interestsFor db b p).length) :
    ∃ keep,
      keep ∈ interestsFor db b p ∧
      (∀ i ∈ interestsFor db b p, i.created ≤ keep.created) ∧
      (new_interest db (some p) bountyId).1 =
        .errorResponse 401 .alreadyInterested (some false) ∧
      pairRows (new_interest db (some p) bountyId).2 bountyId p = [keep] ∧
      (∀ i ∈ db.interests, i ∉ interestsFor db b p →
        i ∈ (new_interest db (some p) bountyId).2.interests) := by
  have hcap' : ¬ 3 ≤ numActive db p := Nat.not_le.mpr hcap
  cases hL : interestsFor db b p with
  | nil => rw [hL] at hm; simp at hm
  | cons i1 rest =>
    cases rest with
    | nil => rw [hL] at hm; simp at hm
    | cons i2 rest2 =>
      have hperm := sortByCreatedDesc_perm (i1 :: i2 :: rest2)
      have hmax := sortByCreatedDesc_headMax (i1 :: i2 :: rest2)
      cases hS : sortByCreatedDesc (i1 :: i2 :: rest2) with
      | nil =>
        rw [hS] at hperm
        have := hperm.length_eq
        simp at this
      | cons keep tail =>
        rw [hS] at hperm hmax
        -- the pair rows have pairwise-distinct ids
        have hsubL : (interestsFor db b p).Sublist db.interests := List.filter_sublist _
        have hndL : ((interestsFor db b p).map (fun i => i.id)).Nodup :=
          List.Nodup.sublist (List.Sublist.map _ hsubL) hnd
        rw [hL] at hsubL hndL
        have hndS : ((keep :: tail).map (fun i => i.id)).Nodup :=
          List.Perm.nodup ((hperm.map (fun i => i.id)).symm) hndL
        have hkeepid : keep.id ∉ tail.map (fun i => i.id) :=
          (List.nodup_cons.mp hndS).1
        -- reduce the handler to the duplicate-repair branch
        have hres : new_interest db (some p) bountyId =
            (.errorResponse 401 .alreadyInterested (some false),
              deleteInterests db (tail.map (fun i => i.id))) := by
          simp [new_interest, hb, hL, hcap', hS]
        refine ⟨keep, ?_, ?_, ?_, ?_, ?_⟩
        · exact hperm.mem_iff.mp (List.mem_cons_self keep tail)
        · intro x hx
          exact hmax x (hperm.mem_iff.mpr hx)
        · rw [hres]
        · rw [hres]
          simp only [pairRows_deleteInterests]
          have hpr : pairRows db bountyId p = i1 :: i2 :: rest2 := by
            simp [pairRows, hb, hL]
          rw [hpr]
          apply filter_eq_singleton
          · exact List.Nodup.of_map _ hndL
          · exact hperm.mem_iff.mp (List.mem_cons_self keep tail)
          · intro x hx
            constructor
            · intro hpred
              rcases List.mem_cons.mp (hperm.mem_iff.mpr hx) with h1 | htail
              · exact h1
              · exfalso
                have : x.id ∈ tail.map (fun i => i.id) :=
                  List.mem_map.mpr ⟨x, htail, rfl⟩
                simp [this] at hpred
            · intro h1
              subst h1
              simp [hkeepid]
        · intro x hx hnotin
          rw [hres]
          simp only [deleteInterests]
          apply List.mem_filter.mpr
          refine ⟨hx, ?_⟩
          have hxid : x.id ∉ tail.map (fun i => i.id) := by
            intro hin
            rcases List.mem_map.mp hin with ⟨y, hy, hyid⟩
            have hymem : y ∈ i1 :: i2 :: rest2 :=
              hperm.mem_iff.mp (List.mem_cons_of_mem keep hy)
            have hydb : y ∈ db.interests := hsubL.mem hymem
            have hxy : x = y := List.inj_on_of_nodup_map hnd hx hydb hyid.symm
            exact hnotin (hxy ▸ hymem)
          simp [hxid]

/-- Witness for amended C6: claiming a bounty that already carries two
duplicate interest rows deletes the older row, keeps the newer one, and is
refused with the already-expressed-interest error. -/
theorem new_interest_dedup_witness :
    ∃ keep,
      keep ∈ interestsFor ⟨[⟨1, 7, 10⟩, ⟨2, 7, 20⟩], [⟨1, "done", true, [1, 2]⟩],
          [7], 3, 100⟩ ⟨1, "done", true, [1, 2]⟩ 7 ∧
      (∀ i ∈ interestsFor ⟨[⟨1, 7, 10⟩, ⟨2, 7, 20⟩], [⟨1, "done", true, [1, 2]⟩],
          [7], 3, 100⟩ ⟨1, "done", true, [1, 2]⟩ 7, i.created ≤ keep.created) ∧
      (new_interest ⟨[⟨1, 7, 10⟩, ⟨2, 7, 20⟩], [⟨1, "done", true, [1, 2]⟩],
          [7], 3, 100⟩ (some 7) 1).1 =
        .errorResponse 401 .alreadyInterested (some false) ∧
      pairRows (new_interest ⟨[⟨1, 7, 10⟩, ⟨2, 7, 20⟩], [⟨1, "done", true, [1, 2]⟩],
          [7], 3, 100⟩ (some 7) 1).2 1 7 = [keep] ∧
      (∀ i ∈ (⟨[⟨1, 7, 10⟩, ⟨2, 7, 20⟩], [⟨1, "done", true, [1, 2]⟩],
          [7], 3, 100⟩ : InterestDb).interests,
        i ∉ interestsFor ⟨[⟨1, 7, 10⟩, ⟨2, 7, 20⟩], [⟨1, "done", true, [1, 2]⟩],
          [7], 3, 100⟩ ⟨1, "done", true, [1, 2]⟩ 7 →
        i ∈ (new_interest ⟨[⟨1, 7, 10⟩, ⟨2, 7, 20⟩], [⟨1, "done", true, [1, 2]⟩],
          [7], 3, 100⟩ (some 7) 1).2.interests) :=
  new_interest_dedup ⟨[⟨1, 7, 10⟩, ⟨2, 7, 20⟩], [⟨1, "done", true, [1, 2]⟩], [7], 3, 100⟩
    7 1 ⟨1, "done", true, [1, 2]⟩ (by decide) (by decide) (by decide) (by decide)

/-! ## Claim theorems: tool-vote invariant -/

/-- Under well-formedness and the one-vote invariant, the rows matching
`ToolVote.objects.get(profile_id=p, tool=tool)` are zero or one. -/
theorem votesFor_short (db : ToolDb) (tool : ToolRow) (p : Nat)
    (hwf : toolDbWF db) (hinv : toolVoteInvariant db) (htool : tool ∈ db.tools) :
    votesFor db tool p = [] ∨ ∃ v, votesFor db tool p = [v] := by
  cases hV : votesFor db tool p with
  | nil => exact Or.inl rfl
  | cons v rest =>
    cases rest with
    | nil => exact Or.inr ⟨v, rfl⟩
    | cons w rest2 =>
      exfalso
      have hsub : (votesFor db tool p).Sublist db.toolVotes := List.filter_sublist _
      have hnd : (votesFor db tool p).Nodup :=
        List.Nodup.of_map _ (List.Nodup.sublist (List.Sublist.map _ hsub) hwf.2.2.2)
      have hvmem : v ∈ db.toolVotes := hsub.mem (by rw [hV]; simp)
      have hwmem : w ∈ db.toolVotes := hsub.mem (by rw [hV]; simp)
      have hvf : v ∈ votesFor db tool p := by rw [hV]; simp
      have hwff : w ∈ votesFor db tool p := by rw [hV]; simp
      have hcv := (List.mem_filter.mp hvf).2
      have hcw := (List.mem_filter.mp hwff).2
      simp only [Bool.and_eq_true, beq_iff_eq] at hcv hcw
      have heq : v = w :=
        hinv.1 tool htool v hvmem w hwmem hcv.1 hcw.1 (hcv.2.trans hcw.2.symm)
      rw [hV, heq] at hnd
      simp at hnd

/-- Creating a fresh vote row for a profile that has no vote on the tool yet
preserves the one-vote-per-profile/tool invariant and keeps every value in
`1`/`-1`.  The updated state is exactly the one both vote handlers build. -/
theorem createVote_invariant (db : ToolDb) (p : Nat) (tool : ToolRow) (val : Int)
    (hwf : toolDbWF db) (hinv : toolVoteInvariant db)
    (htool : tool ∈ db.tools)
    (hval : val = 1 ∨ val = -1)
    (hempty : votesFor db tool p = []) :
    toolVoteInvariant
      { db with
        toolVotes := db.toolVotes ++ [⟨db.nextVoteId, p, val⟩],
        tools := db.tools.map
          (fun t => if t.id == tool.id
            then { t with votes := t.votes ++ [db.nextVoteId] } else t),
        nextVoteId := db.nextVoteId + 1 } := by
  obtain ⟨hidlt, hlinklt, hndt, hndv⟩ := hwf
  obtain ⟨huniq, hvals⟩ := hinv
  constructor
  · intro t' ht' v hv w hw hcv hcw hprof
    simp only [List.mem_map] at ht'
    obtain ⟨t, htmem, ht'eq⟩ := ht'
    simp only [List.mem_append, List.mem_singleton] at hv hw
    by_cases hteq : (t.id == tool.id) = true
    · have ht_eq : t = tool :=
        List.inj_on_of_nodup_map hndt htmem htool (by simpa using hteq)
      subst ht_eq
      rw [if_pos hteq] at ht'eq
      subst ht'eq
      simp only [] at hcv hcw
      simp only [List.elem_eq_mem, List.mem_append, List.mem_singleton,
        decide_eq_true_eq] at hcv hcw
      rcases hv with hvold | hvnew
      · rcases hw with hwold | hwnew
        · have hcv2 : v.id ∈ t.votes := by
            rcases hcv with h | h
            · exact h
            · exfalso
              have h2 := hidlt v hvold
              rw [h] at h2
              exact lt_irrefl _ h2
          have hcw2 : w.id ∈ t.votes := by
            rcases hcw with h | h
            · exact h
            · exfalso
              have h2 := hidlt w hwold
              rw [h] at h2
              exact lt_irrefl _ h2
          exact huniq t htmem v hvold w hwold (by simp [hcv2]) (by simp [hcw2]) hprof
        · exfalso
          have hcv2 : v.id ∈ t.votes := by
            rcases hcv with h | h
            · exact h
            · exfalso
              have h2 := hidlt v hvold
              rw [h] at h2
              exact lt_irrefl _ h2
          have hvp : v.profile_id = p := by rw [hprof, hwnew]
          have hvf : v ∈ votesFor db t p :=
            List.mem_filter.mpr ⟨hvold, by simp [hcv2, hvp]⟩
          rw [hempty] at hvf
          exact (List.not_mem_nil v) hvf
      · rcases hw with hwold | hwnew
        · exfalso
          have hcw2 : w.id ∈ t.votes := by
            rcases hcw with h | h
            · exact h
            · exfalso
              have h2 := hidlt w hwold
              rw [h] at h2
              exact lt_irrefl _ h2
          have hwp : w.profile_id = p := by rw [← hprof, hvnew]
          have hwf2 : w ∈ votesFor db t p :=
            List.mem_filter.mpr ⟨hwold, by simp [hcw2, hwp]⟩
          rw [hempty] at hwf2
          exact (List.not_mem_nil w) hwf2
        · rw [hvnew, hwnew]
    · rw [if_neg hteq] at ht'eq
      subst ht'eq
      simp only [List.elem_eq_mem, decide_eq_true_eq] at hcv hcw
      rcases hv with hvold | hvnew
      · rcases hw with hwold | hwnew
        · exact huniq t htmem v hvold w hwold (by simp [hcv]) (by simp [hcw]) hprof
        · exfalso
          rw [hwnew] at hcw
          have h2 := hlinklt t htmem _ hcw
          exact lt_irrefl _ h2
      · exfalso
        rw [hvnew] at hcv
        have h2 := hlinklt t htmem _ hcv
        exact lt_irrefl _ h2
  · intro v hv
    rcases List.mem_append.mp hv with hold | hnew
    · exact hvals v hold
    · simp only [List.mem_singleton] at hnew
      rw [hnew]
      exact hval

/-- C8: for an authenticated vote request on an existing tool in a
well-formed state satisfying the one-vote invariant: an existing vote by the
profile on the tool yields HTTP 401 with the already-voted error and an
unchanged database; otherwise exactly one `ToolVote` row is created, with
value `1` by `vote_tool_up` and `-1` by `vote_tool_down`, and the handler
answers success; and every vote operation (any session, any tool id)
preserves the invariant that each profile has at most one vote per tool and
every vote value is `1` or `-1`. -/
theorem tool_vote_spec (db : ToolDb) (p toolId : Nat) (tool : ToolRow)
    (hwf : toolDbWF db) (hinv : toolVoteInvariant db)
    (ht : findTool db toolId = some tool) :
    (votesFor db tool p ≠ [] →
      vote_tool_up db (some p) toolId =
        (.response 401 (some .alreadyVoted) (some false), db) ∧
      vote_tool_down db (some p) toolId =
        (.response 401 (some .alreadyVoted) (some false), db)) ∧
    (votesFor db tool p = [] →
      (vote_tool_up db (some p) toolId).1 = .response 200 none (some true) ∧
      (vote_tool_up db (some p) toolId).2.toolVotes =
        db.toolVotes ++ [⟨db.nextVoteId, p, 1⟩] ∧
      (vote_tool_down db (some p) toolId).1 = .response 200 none (some true) ∧
      (vote_tool_down db (some p) toolId).2.toolVotes =
        db.toolVotes ++ [⟨db.nextVoteId, p, -1⟩]) ∧
    (∀ profileId? toolId2,
      toolVoteInvariant (vote_tool_up db profileId? toolId2).2 ∧
      toolVoteInvariant (vote_tool_down db profileId? toolId2).2) := by
  have htool : tool ∈ db.tools := List.mem_of_find?_eq_some ht
  refine ⟨?_, ?_, ?_⟩
  · intro hne
    rcases votesFor_short db tool p hwf hinv htool with h | ⟨v, hv⟩
    · exact absurd h hne
    · constructor
      · simp [vote_tool_up, ht, hv]
      · simp [vote_tool_down, ht, hv]
  · intro hempty
    refine ⟨?_, ?_, ?_, ?_⟩
    · simp [vote_tool_up, ht, hempty]
    · simp [vote_tool_up, ht, hempty]
    · simp [vote_tool_down, ht, hempty]
    · simp [vote_tool_down, ht, hempty]
  · intro profileId? toolId2
    constructor
    · cases ht2 : findTool db toolId2 with
      | none => simpa [vote_tool_up, ht2] using hinv
      | some tool2 =>
        cases profileId? with
        | none => simpa [vote_tool_up, ht2] using hinv
        | some q =>
          have htool2 : tool2 ∈ db.tools := List.mem_of_find?_eq_some ht2
          rcases votesFor_short db tool2 q hwf hinv htool2 with h | ⟨v, hv⟩
          · have hic := createVote_invariant db q tool2 1 ⟨hwf.1, hwf.2.1, hwf.2.2.1,
              hwf.2.2.2⟩ hinv htool2 (Or.inl rfl) h
            simpa [vote_tool_up, ht2, h] using hic
          · simpa [vote_tool_up, ht2, hv] using hinv
    · cases ht2 : findTool db toolId2 with
      | none => simpa [vote_tool_down, ht2] using hinv
      | some tool2 =>
        cases profileId? with
        | none => simpa [vote_tool_down, ht2] using hinv
        | some q =>
          have htool2 : tool2 ∈ db.tools := List.mem_of_find?_eq_some ht2
          rcases votesFor_short db tool2 q hwf hinv htool2 with h | ⟨v, hv⟩
          · have hic := createVote_invariant db q tool2 (-1) ⟨hwf.1, hwf.2.1, hwf.2.2.1,
              hwf.2.2.2⟩ hinv htool2 (Or.inr rfl) h
            simpa [vote_tool_down, ht2, h] using hic
          · simpa [vote_tool_down, ht2, hv] using hinv

/-- Witness for C8: a first up-vote on a fresh tool creates one +1 vote row
and the invariant still holds afterwards. -/
theorem tool_vote_spec_witness :
    (votesFor ⟨[⟨1, []⟩], [], 5⟩ ⟨1, []⟩ 7 ≠ [] →
      vote_tool_up ⟨[⟨1, []⟩], [], 5⟩ (some 7) 1 =
        (.response 401 (some .alreadyVoted) (some false), ⟨[⟨1, []⟩], [], 5⟩) ∧
      vote_tool_down ⟨[⟨1, []⟩], [], 5⟩ (some 7) 1 =
        (.response 401 (some .alreadyVoted) (some false), ⟨[⟨1, []⟩], [], 5⟩)) ∧
    (votesFor ⟨[⟨1, []⟩], [], 5⟩ ⟨1, []⟩ 7 = [] →
      (vote_tool_up ⟨[⟨1, []⟩], [], 5⟩ (some 7) 1).1 = .response 200 none (some true) ∧
      (vote_tool_up ⟨[⟨1, []⟩], [], 5⟩ (some 7) 1).2.toolVotes = [] ++ [⟨5, 7, 1⟩] ∧
      (vote_tool_down ⟨[⟨1, []⟩], [], 5⟩ (some 7) 1).1 = .response 200 none (some true) ∧
      (vote_tool_down ⟨[⟨1, []⟩], [], 5⟩ (some 7) 1).2.toolVotes = [] ++ [⟨5, 7, -1⟩]) ∧
    (∀ profileId? toolId2,
      toolVoteInvariant (vote_tool_up ⟨[⟨1, []⟩], [], 5⟩ profileId? toolId2).2 ∧
      toolVoteInvariant (vote_tool_down ⟨[⟨1, []⟩], [], 5⟩ profileId? toolId2).2) :=
  tool_vote_spec ⟨[⟨1, []⟩], [], 5⟩ 7 1 ⟨1, []⟩
    ⟨by simp, by simp, by simp, by simp⟩
    ⟨by simp [votesFor], by simp⟩ (by decide)
